import Mathlib

/-!
# Wave-Craft segmentor: a shallow embedding

This file embeds the segmentation core of the Wave-Craft repository
(`src/segmentor.py`) and the per-file dispatch loop
(`src/wavecraft/operator.py`) as executable Lean definitions, and proves
properties of the embedded code.

Modelling conventions:
* audio buffers are `List ℚ` (one rational per sample; `sf.read` / `librosa.load`
  return float arrays, modelled exactly by rationals);
* Python `int(x)` truncation, list slicing, `round(x, 6)`, `str.split()`,
  `float(...)` literal parsing, `str.lower()` and the percent-style decimal
  formatting used by the code are embedded by the `py...` helpers below;
* the signal conditioners `utils.fade_io`, `utils.filter`,
  `utils.normalise_audio` live outside this repository's core (the spec treats
  them as external pure functions), so the embedded renderer is parameterised
  by arbitrary functions `List ℚ → List ℚ` standing for them;
* file writes are modelled by returning the list of written files (name and
  conditioned buffer) in write order, and warnings by returning the list of
  emitted skip notices.
-/

namespace WaveCraft

/-- Python `int(x)` applied to a float/rational: truncation toward zero. -/
def pyInt (q : ℚ) : ℤ :=
  if 0 ≤ q then ⌊q⌋ else ⌈q⌉

/-- Python slice `y[a:b]` for nonnegative integer indices (step 1):
elements from index `a` (inclusive) to `b` (exclusive), clipped to the list. -/
def pySliceN (y : List ℚ) (a b : ℕ) : List ℚ :=
  (y.take b).drop a

/-- Python slice `y[a:b]` for possibly negative integer indices (step 1):
a negative index counts from the end; both ends are clipped to `[0, len]`. -/
def pySliceZ (y : List ℚ) (a b : ℤ) : List ℚ :=
  let n : ℤ := (y.length : ℤ)
  let norm : ℤ → ℕ := fun i => (min (max (if i < 0 then n + i else i) 0) n).toNat
  pySliceN y (norm a) (norm b)

/-- The decimal digit character for `n % 10` (embeds Python digit printing). -/
def digitChar10 (n : ℕ) : Char :=
  Char.ofNat (48 + n % 10)

/-- Big-endian decimal digit characters of `n`, with explicit structural fuel
(`fuel > number of digits` suffices; callers pass `n + 1`). -/
def natDigitsAux : ℕ → ℕ → List Char
  | 0, _ => []
  | _ + 1, 0 => []
  | fuel + 1, n => natDigitsAux fuel (n / 10) ++ [digitChar10 n]

/-- Python `str(n)` for a natural number: its decimal digits. -/
def natStr (n : ℕ) : String :=
  if n = 0 then String.mk [digitChar10 0] else String.mk (natDigitsAux (n + 1) n)

/-- Round a rational to the nearest integer, ties to even — the rounding used
by Python's builtin `round`. -/
def pyRoundHalfEven (q : ℚ) : ℤ :=
  let f := ⌊q⌋
  let r := q - (f : ℚ)
  if r < 1 / 2 then f
  else if 1 / 2 < r then f + 1
  else if f % 2 = 0 then f else f + 1

/-- The six fractional-digit characters of `m` (for `m < 10^6`), zero-padded on
the left — the fractional part produced by a `.6f` format. -/
def pad6 (m : ℕ) : String :=
  String.mk ([5, 4, 3, 2, 1, 0].map (fun k => digitChar10 (m / 10 ^ k)))

/-- Embeds the composite `f-string` formatting in `save_segments_as_txt`:
`round(t, 6)` followed by a `.6f` format, i.e. the decimal numeral of `t`
rounded to six fractional places, always printing exactly six fractional
digits.  Faithful for `t ≥ 0` (the exporter only prints nonnegative times). -/
def fmt6 (t : ℚ) : String :=
  let n := (pyRoundHalfEven (t * 1000000)).toNat
  natStr (n / 1000000) ++ "." ++ pad6 (n % 1000000)

/-- `cs` is a nonempty list of decimal digit characters. -/
def allDigits (cs : List Char) : Bool :=
  !cs.isEmpty && cs.all Char.isDigit

/-- Numeric value of a list of decimal digit characters. -/
def natOfDigits (cs : List Char) : ℕ :=
  cs.foldl (fun a c => 10 * a + (c.toNat - 48)) 0

/-- Strip one leading `+` or `-`; return whether the value is negated and the
remaining characters. -/
def stripSign : List Char → Bool × List Char
  | '+' :: r => (false, r)
  | '-' :: r => (true, r)
  | r => (false, r)

/-- Parse the unsigned mantissa of a Python float literal: `digits`,
`digits.`, `digits.digits` or `.digits`. -/
def parseMantissa (cs : List Char) : Option ℚ :=
  match cs.span (fun c => !(c == '.')) with
  | (a, []) => if allDigits a then some ((natOfDigits a : ℚ)) else none
  | (a, _ :: b) =>
    if a.all Char.isDigit && b.all Char.isDigit && (!a.isEmpty || !b.isEmpty) then
      some ((natOfDigits a : ℚ) + (natOfDigits b : ℚ) / (10 : ℚ) ^ b.length)
    else none

/-- Embeds Python `float(token)` on the decimal literals the segmentor's text
files contain: optional sign, decimal mantissa, optional `e`/`E` exponent.
(The model omits `inf`/`nan` and underscore digit grouping, which never occur
in exported boundary files.)  `none` models `float` raising `ValueError`. -/
def pyFloat? (s : String) : Option ℚ :=
  let (neg, cs) := stripSign s.data
  let (mant, rest) := cs.span (fun c => !(c == 'e' || c == 'E'))
  let mval : Option ℚ := parseMantissa mant
  let eval : Option ℤ :=
    match rest with
    | [] => some 0
    | _ :: ex =>
      let (eneg, ed) := stripSign ex
      if allDigits ed then
        some (if eneg then -(natOfDigits ed : ℤ) else (natOfDigits ed : ℤ))
      else none
  match mval, eval with
  | some m, some e => some ((if neg then -m else m) * (10 : ℚ) ^ e)
  | _, _ => none

/-- Accumulator pass for `pyStrSplit`: group maximal runs of
non-whitespace characters, dropping the whitespace. -/
def splitWsAux : List Char → List Char → List (List Char)
  | [], acc => if acc.isEmpty then [] else [acc.reverse]
  | c :: rest, acc =>
    if c.isWhitespace then
      if acc.isEmpty then splitWsAux rest []
      else acc.reverse :: splitWsAux rest []
    else splitWsAux rest (c :: acc)

/-- Python `str.split()` with no separator argument: split on runs of
whitespace, producing no empty tokens. -/
def pyStrSplit (s : String) : List String :=
  (splitWsAux s.data []).map String.mk

/-- Python `str.lower()` on one character (ASCII range, which is all the
segmentor compares against). -/
def pyLowerChar (c : Char) : Char :=
  if c.isUpper then Char.ofNat (c.toNat + 32) else c

/-- Python `str.lower()`. -/
def pyLower (s : String) : String :=
  String.mk (s.data.map pyLowerChar)

/-! ## Segmentor (src/segmentor.py) -/

/-- `librosa.frames_to_samples(segments, hop_length=hop, n_fft=nFft)` as used
at segmentor.py:24: each frame index becomes `frame * hop + nFft / 2`
(integer flooring division for the window-centre offset). -/
def framesToSamples (frames : List ℕ) (hop nFft : ℕ) : List ℕ :=
  frames.map (fun f => f * hop + nFft / 2)

/-- The iteration space of `for i in range(len(segments) - 1)` together with
`segments[i]` and `segments[i + 1]`: the list of `(i, segments[i],
segments[i+1])` for `i` from `i0`.  Called with `i0 = 0` below. -/
def adjacentPairs : List ℕ → ℕ → List (ℕ × ℕ × ℕ)
  | a :: b :: rest, i => (i, a, b) :: adjacentPairs (b :: rest) (i + 1)
  | _, _ => []

/-- One audio file written by `render_segments`: its sequential number
(`count` in the source), the path the name was built from, and the
conditioned buffer handed to `sf.write`. -/
structure WrittenFile where
  num : ℕ
  path : String
  buffer : List ℚ
  deriving DecidableEq

/-- One "Skipping segment ... because it's too short" notice: the printed
segment index (`i + 1` in the source) and the printed duration in seconds. -/
structure SkipWarning where
  index : ℕ
  duration : ℚ
  deriving DecidableEq

/-- The loop body of `Segmentor.render_segments` (segmentor.py:26-42), over
the remaining `(i, start_sample, end_sample)` triples and the current value
of `count`.  `fadeFn`, `filterFn`, `normFn` stand for the external
conditioners `utils.fade_io`, `utils.filter`, `utils.normalise_audio` with
the configured parameters already applied. -/
def renderGo (fadeFn filterFn normFn : List ℚ → List ℚ) (base : String)
    (y : List ℚ) (sr minLen : ℚ) :
    List (ℕ × ℕ × ℕ) → ℕ → List WrittenFile × List SkipWarning
  | [], _ => ([], [])
  | (i, s, e) :: rest, count =>
    let segment := pySliceN y s e
    let segmentLength : ℚ := (segment.length : ℚ) / sr
    if segmentLength < minLen then
      let r := renderGo fadeFn filterFn normFn base y sr minLen rest count
      (r.1, ⟨i + 1, segmentLength⟩ :: r.2)
    else
      let fadedSeg := fadeFn segment
      let filteredSeg := filterFn fadedSeg
      let normalisedSeg := normFn filteredSeg
      let r := renderGo fadeFn filterFn normFn base y sr minLen rest (count + 1)
      (⟨count + 1, base ++ "_" ++ natStr (count + 1) ++ ".wav", normalisedSeg⟩ :: r.1, r.2)

/-- `Segmentor.render_segments` (segmentor.py:21-48): convert the boundary
frames to sample offsets, then slice, length-filter, condition and write each
adjacent pair.  Returns (written files in write order, skip warnings in emit
order).  `y` is the signal read back by `sf.read`; `sr` is
`args.sample_rate` (used for the duration test); `minLen` is
`args.min_length`. -/
def render_segments (fadeFn filterFn normFn : List ℚ → List ℚ) (base : String)
    (y : List ℚ) (boundaryFrames : List ℕ) (hop nFft : ℕ) (sr minLen : ℚ) :
    List WrittenFile × List SkipWarning :=
  let segments := framesToSamples boundaryFrames hop nFft
  renderGo fadeFn filterFn normFn base y sr minLen (adjacentPairs segments 0) 0

/-- `Segmentor.save_segments_as_txt` (segmentor.py:51-67): one text line per
adjacent boundary pair.  Each boundary value is converted to seconds by
`librosa.samples_to_time(_, sr) = _ / sr`, rounded to six decimal places and
formatted with exactly six decimal places (`fmt6` embeds the
round-then-format pair), and the two times are joined by a tab and a
trailing newline.  Returns the written lines in order. -/
def save_segments_as_txt (onsets : List ℕ) (sr : ℚ) : List String :=
  (adjacentPairs onsets 0).map
    (fun p => fmt6 ((p.2.1 : ℚ) / sr) ++ "\t" ++ fmt6 ((p.2.2 : ℚ) / sr) ++ "\n")

/-- One audio file written by `segment_using_txt`: the enumeration index `i`
of its source line, the file name built from it, the two computed sample
offsets, and the faded buffer handed to `sf.write`. -/
structure TxtOutput where
  idx : ℕ
  path : String
  startSample : ℤ
  endSample : ℤ
  buffer : List ℚ
  deriving DecidableEq

/-- The per-line body of `Segmentor.segment_using_txt` (segmentor.py:77-90).
`none` models the line raising: `start_time, end_time = tokens[:2]` raises
`ValueError` when the line has fewer than two whitespace-separated tokens,
and `float(...)` raises `ValueError` on a non-numeric token.  `fadeFn`
stands for `utils.fade_io` with the configured fade duration. -/
def processTxtLine (fadeFn : List ℚ → List ℚ) (y : List ℚ) (sr : ℚ)
    (i : ℕ) (line : String) : Option TxtOutput :=
  match pyStrSplit line with
  | t0 :: t1 :: _ =>
    match pyFloat? t0, pyFloat? t1 with
    | some v0, some v1 =>
      let startTime := v0 * 1000
      let endTime := v1 * 1000
      let startSample := pyInt (startTime * sr / 1000)
      let endSample := pyInt (endTime * sr / 1000)
      let segment := pySliceZ y startSample endSample
      let faded := fadeFn segment
      some ⟨i, "segment_" ++ natStr i ++ ".wav", startSample, endSample, faded⟩
    | _, _ => none
  | _ => none

/-- A line the text segmenter raises on: fewer than two tokens, or a
non-numeric token among the first two. -/
def malformedLine (line : String) : Bool :=
  (processTxtLine id [] 1 0 line).isNone

/-- The loop of `Segmentor.segment_using_txt` (segmentor.py:74-90) over
`enumerate(lines)`: files written before an exception stay written (Python
has no rollback), and the first failing line aborts the rest.  Returns the
written files and `some message` when the loop raised. -/
def segTxtGo (fadeFn : List ℚ → List ℚ) (y : List ℚ) (sr : ℚ) :
    List String → ℕ → List TxtOutput × Option String
  | [], _ => ([], none)
  | line :: rest, i =>
    match processTxtLine fadeFn y sr i line with
    | none => ([], some "ValueError")
    | some out =>
      let r := segTxtGo fadeFn y sr rest (i + 1)
      (out :: r.1, r.2)

/-- `Segmentor.segment_using_txt` (segmentor.py:69-90): reload the audio at
its native rate (`y`, `sr` here), then process every timestamp line in
order. -/
def segment_using_txt (fadeFn : List ℚ → List ℚ) (y : List ℚ) (sr : ℚ)
    (lines : List String) : List TxtOutput × Option String :=
  segTxtGo fadeFn y sr lines 0

/-- Observable behaviour of `Segmentor.main` (segmentor.py:92-113) when
`segmentation_method == 'text'` and `save_txt` is off: the prompt is shown
unconditionally, `input == '3'` (after `.lower()`) exits before segmenting,
and every other answer falls through to the text branch, which runs
`segment_using_txt` exactly once. -/
structure TextModeRun where
  prompted : Bool
  exited : Bool
  segmenterRuns : ℕ
  deriving DecidableEq

/-- `Segmentor.main` for `segmentation_method == 'text'` (segmentor.py:100-107),
as a function of the interactive answer. -/
def segmentorMainTextMode (userInput : String) : TextModeRun :=
  if pyLower userInput = "3" then ⟨true, true, 0⟩
  else ⟨true, false, 1⟩

/-! ## Configuration object and per-file dispatch (src/wavecraft/operator.py) -/

/-- The shared `args` namespace object: the recognized options of
segmentor.py's argument parser plus the analysis-resolution fields managed by
`operator.main`.  `output_directory` / `input_text` use `Option` for Python
`None` (both are falsy defaults filled in later). -/
structure Args where
  input_file : String
  input_text : Option String
  output_directory : Option String
  segmentation_method : String
  save_txt : Bool
  min_length : ℚ
  fade_duration : ℤ
  curve_type : String
  filter_frequency : ℤ
  filter_type : String
  normalisation_level : ℚ
  normalisation_mode : String
  sample_rate : ℚ
  n_fft : ℕ
  hop_size : ℕ
  window_length : ℕ
  n_bins : ℕ
  n_mels : ℕ
  no_resolution_adjustment : Bool
  deriving DecidableEq

/-- `os.path.splitext(p)[0]` for ordinary file names: the name without its
last dot-extension (a dot-free name is returned whole). -/
def splitextRoot (p : String) : String :=
  match p.data.reverse.span (fun c => !(c == '.')) with
  | (_, []) => p
  | (ext, _ :: stem) =>
    if ext.any (fun c => c == '/') then p else String.mk stem.reverse

/-- The `self.args.output_directory = self.args.output_directory or
os.path.splitext(input_file)[0] + '_segments'` mutation in
`Segmentor.__init__` (segmentor.py:16). -/
def segmentorInit (a : Args) : Args :=
  match a.output_directory with
  | some _ => { a with output_directory := a.output_directory }
  | none => { a with output_directory := some (splitextRoot a.input_file ++ "_segments") }

/-- The `if (not self.args.input_text): self.args.input_text = ...` mutation
in `Segmentor.main`'s text branch (segmentor.py:105-106). -/
def textModeDefault (a : Args) : Args :=
  match a.input_text with
  | some _ => { a with input_text := a.input_text }
  | none => { a with input_text := some (splitextRoot a.input_file ++ ".txt") }

/-- The five analysis-resolution fields of `args` that `operator.main`
captures before the file loop (operator.py:24-29) and restores after each
file (operator.py:123-127). -/
structure ResFields where
  n_fft : ℕ
  hop_size : ℕ
  window_length : ℕ
  n_bins : ℕ
  n_mels : ℕ
  deriving DecidableEq

/-- Read the five resolution fields out of the shared object. -/
def getRes (a : Args) : ResFields :=
  ⟨a.n_fft, a.hop_size, a.window_length, a.n_bins, a.n_mels⟩

/-- Write the five resolution fields into the shared object (the block at
operator.py:123-127, and the tuple assignment at operator.py:64). -/
def setRes (r : ResFields) (a : Args) : Args :=
  { a with n_fft := r.n_fft, hop_size := r.hop_size,
           window_length := r.window_length, n_bins := r.n_bins, n_mels := r.n_mels }

/-- The assignments at operator.py:27-29 that run before the capture is
complete: `args.window_length = 384`, `args.n_bins = 84`,
`args.n_mels = 128` (the captured locals read these just-written values). -/
def dispatchInit (a : Args) : Args :=
  { a with window_length := 384, n_bins := 84, n_mels := 128 }

/-- One iteration of the `for file in files` loop (operator.py:44-127),
restricted to its effect on the shared `args` object.  `loadOk = false`
models the `except RuntimeError: continue` path (operator.py:54-56), which
skips both the resolution adjustment and the end-of-iteration restore.
`adjust` stands for the external `utils.adjust_anal_res` (its five returned
values), applied when `no_resolution_adjustment` is off (operator.py:62-64);
`proc` is the per-operation processing (Segmentor and friends), an arbitrary
further mutation of the shared object. -/
def fileIteration (adjust : Args → ResFields) (proc : Args → Args)
    (saved : ResFields) (a : Args) (loadOk : Bool) : Args :=
  if loadOk then
    let adjusted := if a.no_resolution_adjustment then a else setRes (adjust a) a
    setRes saved (proc adjusted)
  else a

/-- The successive values of the shared `args` object seen at the top of each
loop iteration (and after the last), given the per-file load outcomes. -/
def dispatchStates (adjust : Args → ResFields) (proc : Args → Args)
    (saved : ResFields) : Args → List Bool → List Args
  | a, [] => [a]
  | a, ok :: rest =>
    a :: dispatchStates adjust proc saved (fileIteration adjust proc saved a ok) rest

/-- The shared `args` object after the whole file loop. -/
def dispatchFinal (adjust : Args → ResFields) (proc : Args → Args)
    (saved : ResFields) (a : Args) (oks : List Bool) : Args :=
  oks.foldl (fileIteration adjust proc saved) a

/-! ## Derived specification helpers -/

/-- Duration in seconds of the candidate segment between sample offsets `s`
and `e`, exactly as the renderer computes it: `len(y[s:e]) / sample_rate`. -/
def candDur (y : List ℚ) (sr : ℚ) (s e : ℕ) : ℚ :=
  ((pySliceN y s e).length : ℚ) / sr

/-- The renderer's keep test for a candidate triple: the negation of
`segment_length < min_length`. -/
def survives (y : List ℚ) (sr minLen : ℚ) (p : ℕ × ℕ × ℕ) : Bool :=
  !decide (candDur y sr p.2.1 p.2.2 < minLen)

/-- The file the renderer writes for the surviving candidate `p` when the
output counter is incremented to `c + 1`. -/
def writtenOf (fadeFn filterFn normFn : List ℚ → List ℚ) (base : String)
    (y : List ℚ) (c : ℕ) (p : ℕ × ℕ × ℕ) : WrittenFile :=
  ⟨c + 1, base ++ "_" ++ natStr (c + 1) ++ ".wav",
    normFn (filterFn (fadeFn (pySliceN y p.2.1 p.2.2)))⟩

/-- Number a list of surviving candidates consecutively starting at
`c + 1`. -/
def numberFrom (fadeFn filterFn normFn : List ℚ → List ℚ) (base : String)
    (y : List ℚ) : ℕ → List (ℕ × ℕ × ℕ) → List WrittenFile
  | _, [] => []
  | c, p :: ps =>
    writtenOf fadeFn filterFn normFn base y c p ::
      numberFrom fadeFn filterFn normFn base y (c + 1) ps

/-- An eleven-sample test signal.  With `sample_rate = 20` and boundaries
`[0, 1, 7, 11]` (hop 1, no window offset) the three candidates last
`1/20 = 0.05 s`, `6/20 = 0.3 s` and `4/20 = 0.2 s` — the durations of the
spec's worked numbering example. -/
def exampleSignal : List ℚ := [0, 1, 2, 3, 4, 5, 6, 7, 8, 9, 10]

/-- The empty default used when indexing a line list out of range. -/
def noLine : String := ""

/-- The sample-offset computation exactly as claim C6 words it: the time is
first converted to a millisecond *integer*, and the offset is the integer
result of `time_ms * sample_rate / 1000`.  (The code keeps fractional
milliseconds instead; see the C6 counterexample.) -/
def specMsIntegerSample (t : ℚ) (sr : ℚ) : ℤ :=
  pyInt ((pyInt (t * 1000) : ℚ) * sr / 1000)

/-- A concrete resolved configuration: the argument-parser defaults of
segmentor.py with input file `sound.wav` and no explicit output directory or
timestamp file. -/
def exampleArgs : Args where
  input_file := "sound.wav"
  input_text := none
  output_directory := none
  segmentation_method := "onset"
  save_txt := false
  min_length := 1 / 10
  fade_duration := 20
  curve_type := "exp"
  filter_frequency := 40
  filter_type := "high"
  normalisation_level := -3
  normalisation_mode := "peak"
  sample_rate := 48000
  n_fft := 2048
  hop_size := 512
  window_length := 2048
  n_bins := 84
  n_mels := 128
  no_resolution_adjustment := false

end WaveCraft

namespace WaveCraft

/-! ## Helper lemmas -/

/-- Full evaluation of the renderer on `exampleSignal` with boundaries
`[0, 1, 7, 11]`, `sample_rate = 20` and `min_length = 0.1`: the first
candidate (0.05 s) is skipped with warning index 1; the second and third
survive and are written as files 1 and 2. -/
theorem exampleRenderEval :
    render_segments id id id ("seg") exampleSignal [0, 1, 7, 11] 1 0 20 (1 / 10)
      = ([⟨1, "seg_1.wav", pySliceN exampleSignal 1 7⟩,
          ⟨2, "seg_2.wav", pySliceN exampleSignal 7 11⟩],
         [⟨1, 1 / 20⟩]) := by
  have hlen : exampleSignal.length = 11 := by rfl
  simp only [render_segments, framesToSamples, List.map_cons, List.map_nil]
  norm_num only []
  simp only [adjacentPairs, renderGo, pySliceN, List.length_drop, List.length_take, hlen]
  norm_num [natStr, natDigitsAux, digitChar10]
  exact ⟨by decide, by decide⟩

theorem length_filter_add_length_filter_not {α : Type} (p : α → Bool) (l : List α) :
    (l.filter p).length + (l.filter (fun a => !p a)).length = l.length := by
  induction l with
  | nil => simp
  | cons a t ih =>
    cases h : p a <;> simp [List.filter_cons, h] <;> omega

theorem adjacentPairs_length : ∀ (l : List ℕ) (i0 : ℕ),
    (adjacentPairs l i0).length = l.length - 1 := by
  intro l
  induction l with
  | nil => intro i0; simp [adjacentPairs]
  | cons a t ih =>
    intro i0
    cases t with
    | nil => simp [adjacentPairs]
    | cons b r => simp [adjacentPairs, ih (i0 + 1)]

theorem mem_adjacentPairs : ∀ (l : List ℕ) (i0 i s e : ℕ),
    (i, s, e) ∈ adjacentPairs l i0 ↔
      ∃ j, i = i0 + j ∧ j + 1 < l.length ∧ s = l.getD j 0 ∧ e = l.getD (j + 1) 0 := by
  intro l
  induction l with
  | nil =>
    intro i0 i s e
    simp [adjacentPairs]
  | cons a t ih =>
    intro i0 i s e
    cases t with
    | nil =>
      simp only [adjacentPairs, List.not_mem_nil, false_iff]
      rintro ⟨j, -, hj, -⟩
      simp at hj
    | cons b r =>
      constructor
      · intro hmem
        rcases List.mem_cons.mp hmem with heq | htail
        · obtain ⟨h1, h2, h3⟩ : i = i0 ∧ s = a ∧ e = b := by simpa using heq
          exact ⟨0, by omega, by simp, by simp [h2], by simp [h3]⟩
        · obtain ⟨j, hji, hjl, hs, he⟩ := (ih (i0 + 1) i s e).mp htail
          exact ⟨j + 1, by omega, by simp at hjl ⊢; omega, by simpa using hs,
            by simpa using he⟩
      · rintro ⟨j, hji, hjl, hs, he⟩
        cases j with
        | zero =>
          simp only [List.getD_cons_zero] at hs
          simp only [List.getD_cons_succ, List.getD_cons_zero] at he
          exact List.mem_cons.mpr (Or.inl (by simp [hji, hs, he]))
        | succ j' =>
          refine List.mem_cons.mpr (Or.inr ((ih (i0 + 1) i s e).mpr ⟨j', by omega, ?_, ?_, ?_⟩))
          · simp at hjl ⊢; omega
          · simpa using hs
          · simpa using he

theorem numberFrom_length (fadeFn filterFn normFn : List ℚ → List ℚ) (base : String)
    (y : List ℚ) : ∀ (l : List (ℕ × ℕ × ℕ)) (c : ℕ),
    (numberFrom fadeFn filterFn normFn base y c l).length = l.length := by
  intro l
  induction l with
  | nil => intro c; simp [numberFrom]
  | cons p ps ih => intro c; simp [numberFrom, ih (c + 1)]

theorem numberFrom_map_num (fadeFn filterFn normFn : List ℚ → List ℚ) (base : String)
    (y : List ℚ) : ∀ (l : List (ℕ × ℕ × ℕ)) (c : ℕ),
    (numberFrom fadeFn filterFn normFn base y c l).map WrittenFile.num =
      List.range' (c + 1) l.length := by
  intro l
  induction l with
  | nil => intro c; simp [numberFrom]
  | cons p ps ih =>
    intro c
    simp [numberFrom, writtenOf, ih (c + 1), List.range'_succ]

theorem mem_numberFrom (fadeFn filterFn normFn : List ℚ → List ℚ) (base : String)
    (y : List ℚ) : ∀ (l : List (ℕ × ℕ × ℕ)) (c : ℕ) (w : WrittenFile),
    w ∈ numberFrom fadeFn filterFn normFn base y c l →
      ∃ p ∈ l, w = writtenOf fadeFn filterFn normFn base y (w.num - 1) p := by
  intro l
  induction l with
  | nil => intro c w h; simp [numberFrom] at h
  | cons p ps ih =>
    intro c w h
    rcases List.mem_cons.mp h with heq | htail
    · refine ⟨p, List.mem_cons_self .., ?_⟩
      rw [heq]
      simp [writtenOf]
    · obtain ⟨q, hq, hw⟩ := ih (c + 1) w htail
      exact ⟨q, List.mem_cons.mpr (Or.inr hq), hw⟩

theorem adjacentPairs_getElem? : ∀ (l : List ℕ) (i0 j : ℕ), j + 1 < l.length →
    (adjacentPairs l i0)[j]? = some (i0 + j, l.getD j 0, l.getD (j + 1) 0) := by
  intro l
  induction l with
  | nil => intro i0 j h; simp at h
  | cons a t ih =>
    intro i0 j h
    cases t with
    | nil => simp at h
    | cons b r =>
      cases j with
      | zero => simp [adjacentPairs]
      | succ j' =>
        have hlt : j' + 1 < (b :: r).length := by simp at h ⊢; omega
        have harith : i0 + 1 + j' = i0 + (j' + 1) := by omega
        simp [adjacentPairs, ih (i0 + 1) j' hlt, harith]

theorem digitChar10_isDigit (n : ℕ) : (digitChar10 n).isDigit = true := by
  unfold digitChar10
  have h : n % 10 < 10 := Nat.mod_lt _ (by norm_num)
  generalize n % 10 = k at h ⊢
  interval_cases k <;> decide

theorem natDigitsAux_all_digits : ∀ (fuel n : ℕ),
    (natDigitsAux fuel n).all Char.isDigit = true := by
  intro fuel
  induction fuel with
  | zero => intro n; rfl
  | succ f ih =>
    intro n
    cases n with
    | zero => rfl
    | succ m => simp [natDigitsAux, ih, digitChar10_isDigit]

theorem natStr_all_digits (n : ℕ) : (natStr n).data.all Char.isDigit = true := by
  unfold natStr
  by_cases h : n = 0
  · simp [h, digitChar10_isDigit]
  · simp [h, natDigitsAux_all_digits]

theorem natStr_ne_nil (n : ℕ) : (natStr n).data ≠ [] := by
  unfold natStr
  by_cases h : n = 0
  · simp [h]
  · obtain ⟨m, rfl⟩ := Nat.exists_eq_succ_of_ne_zero h
    simp [natDigitsAux]

theorem pad6_length (m : ℕ) : (pad6 m).data.length = 6 := by
  simp [pad6]

theorem pad6_all_digits (m : ℕ) : (pad6 m).data.all Char.isDigit = true := by
  simp only [pad6, List.all_eq_true]
  intro c hc
  obtain ⟨k, _, rfl⟩ := List.mem_map.mp hc
  exact digitChar10_isDigit _

theorem fmt6_decimal_places (t : ℚ) : ∃ ip fp : List Char,
    (fmt6 t).data = ip ++ '.' :: fp ∧ fp.length = 6 ∧ fp.all Char.isDigit = true ∧
    ip ≠ [] ∧ ip.all Char.isDigit = true := by
  refine ⟨(natStr ((pyRoundHalfEven (t * 1000000)).toNat / 1000000)).data,
    (pad6 ((pyRoundHalfEven (t * 1000000)).toNat % 1000000)).data,
    ?_, pad6_length _, pad6_all_digits _, natStr_ne_nil _, natStr_all_digits _⟩
  simp [fmt6, String.data_append]

theorem pyFloatEval_zeroDot : pyFloat? ("0.0") = some 0 := by
  simp [pyFloat?, stripSign, parseMantissa, allDigits, natOfDigits]

theorem pyFloatEval_zeroSix : pyFloat? ("0.000000") = some 0 := by
  simp [pyFloat?, stripSign, parseMantissa, allDigits, natOfDigits]

theorem pyFloatEval_threeHalves : pyFloat? ("1.5") = some (3 / 2) := by
  simp [pyFloat?, stripSign, parseMantissa, allDigits, natOfDigits]
  norm_num

theorem pyFloatEval_twoOhEight : pyFloat? ("0.000208") = some (13 / 62500) := by
  simp [pyFloat?, stripSign, parseMantissa, allDigits, natOfDigits]
  norm_num

theorem pyFloatEval_fourTenThousandths : pyFloat? ("0.0004") = some (1 / 2500) := by
  simp [pyFloat?, stripSign, parseMantissa, allDigits, natOfDigits]
  norm_num

theorem processTxtLine_isNone (fadeFn : List ℚ → List ℚ) (y : List ℚ) (sr : ℚ)
    (i : ℕ) (line : String) :
    (processTxtLine fadeFn y sr i line).isNone = malformedLine line := by
  simp only [malformedLine, processTxtLine]
  rcases pyStrSplit line with _ | ⟨t0, _ | ⟨t1, rest⟩⟩
  · rfl
  · rfl
  · rcases h0 : pyFloat? t0 with _ | v0 <;> rcases h1 : pyFloat? t1 with _ | v1 <;>
      simp [h0, h1]

theorem processTxtLine_eq_some (fadeFn : List ℚ → List ℚ) (y : List ℚ) (sr : ℚ)
    (i : ℕ) (line : String) (t0 t1 : String) (rest : List String) (v0 v1 : ℚ)
    (htok : pyStrSplit line = t0 :: t1 :: rest)
    (h0 : pyFloat? t0 = some v0) (h1 : pyFloat? t1 = some v1) :
    processTxtLine fadeFn y sr i line =
      some ⟨i, "segment_" ++ natStr i ++ ".wav",
        pyInt (v0 * 1000 * sr / 1000), pyInt (v1 * 1000 * sr / 1000),
        fadeFn (pySliceZ y (pyInt (v0 * 1000 * sr / 1000))
          (pyInt (v1 * 1000 * sr / 1000)))⟩ := by
  simp [processTxtLine, htok, h0, h1]

theorem processTxtLine_idx (fadeFn : List ℚ → List ℚ) (y : List ℚ) (sr : ℚ)
    (i : ℕ) (line : String) (out : TxtOutput)
    (h : processTxtLine fadeFn y sr i line = some out) : out.idx = i := by
  simp only [processTxtLine] at h
  rcases htok : pyStrSplit line with _ | ⟨t0, _ | ⟨t1, rest⟩⟩ <;> rw [htok] at h
  · simp at h
  · simp at h
  · rcases h0 : pyFloat? t0 with _ | v0 <;> rcases h1 : pyFloat? t1 with _ | v1 <;>
      simp [h0, h1] at h
    rw [← h]

theorem segTxtGo_spec (fadeFn : List ℚ → List ℚ) (y : List ℚ) (sr : ℚ) :
    ∀ (lines : List String) (i : ℕ),
    ((segTxtGo fadeFn y sr lines i).2.isSome = true ↔
      ∃ l ∈ lines, malformedLine l = true) ∧
    (segTxtGo fadeFn y sr lines i).1.length
      = (lines.takeWhile (fun l => !malformedLine l)).length ∧
    ∀ out ∈ (segTxtGo fadeFn y sr lines i).1,
      i ≤ out.idx ∧ out.idx - i < lines.length ∧
      malformedLine (lines.getD (out.idx - i) noLine) = false := by
  intro lines
  induction lines with
  | nil => intro i; simp [segTxtGo]
  | cons line rest ih =>
    intro i
    rcases hpl : processTxtLine fadeFn y sr i line with _ | out0
    · have hmal : malformedLine line = true := by
        have h := processTxtLine_isNone fadeFn y sr i line
        rw [hpl] at h
        exact h.symm
      refine ⟨?_, ?_, ?_⟩
      · simp only [segTxtGo, hpl, Option.isSome_some, true_iff]
        exact ⟨line, List.mem_cons_self .., hmal⟩
      · simp only [segTxtGo, hpl, List.takeWhile_cons, hmal]
        simp
      · simp only [segTxtGo, hpl]
        intro out hout
        simp at hout
    · have hgood : malformedLine line = false := by
        have h := processTxtLine_isNone fadeFn y sr i line
        rw [hpl] at h
        exact h.symm
      have hidx : out0.idx = i := processTxtLine_idx fadeFn y sr i line out0 hpl
      obtain ⟨ih1, ih2, ih3⟩ := ih (i + 1)
      refine ⟨?_, ?_, ?_⟩
      · simp only [segTxtGo, hpl]
        constructor
        · intro h
          obtain ⟨l, hl, hm⟩ := ih1.mp h
          exact ⟨l, List.mem_cons.mpr (Or.inr hl), hm⟩
        · rintro ⟨l, hl, hm⟩
          rcases List.mem_cons.mp hl with rfl | hl'
          · rw [hgood] at hm
            cases hm
          · exact ih1.mpr ⟨l, hl', hm⟩
      · simp only [segTxtGo, hpl, List.length_cons, List.takeWhile_cons, hgood]
        simp [ih2]
      · simp only [segTxtGo, hpl]
        intro out hout
        rcases List.mem_cons.mp hout with rfl | hout'
        · refine ⟨by omega, ?_, ?_⟩
          · rw [hidx]
            simp
          · rw [hidx]
            simpa using hgood
        · obtain ⟨h1, h2, h3⟩ := ih3 out hout'
          refine ⟨by omega, by simp only [List.length_cons]; omega, ?_⟩
          have hstep : out.idx - i = (out.idx - (i + 1)) + 1 := by omega
          rw [hstep, List.getD_cons_succ]
          exact h3

theorem getRes_setRes (r : ResFields) (a : Args) : getRes (setRes r a) = r := rfl

theorem getRes_fileIteration (adjust : Args → ResFields) (proc : Args → Args)
    (saved : ResFields) (a : Args) (ok : Bool) (h : getRes a = saved) :
    getRes (fileIteration adjust proc saved a ok) = saved := by
  cases ok
  · simpa [fileIteration] using h
  · simp [fileIteration, getRes_setRes]

theorem dispatchFinal_getRes (adjust : Args → ResFields) (proc : Args → Args)
    (saved : ResFields) : ∀ (oks : List Bool) (a : Args), getRes a = saved →
    getRes (dispatchFinal adjust proc saved a oks) = saved := by
  intro oks
  induction oks with
  | nil => intro a h; simpa [dispatchFinal] using h
  | cons ok rest ih =>
    intro a h
    simp only [dispatchFinal, List.foldl_cons]
    exact ih (fileIteration adjust proc saved a ok)
      (getRes_fileIteration adjust proc saved a ok h)

theorem dispatchStates_getRes (adjust : Args → ResFields) (proc : Args → Args)
    (saved : ResFields) : ∀ (oks : List Bool) (a : Args), getRes a = saved →
    ∀ s ∈ dispatchStates adjust proc saved a oks, getRes s = saved := by
  intro oks
  induction oks with
  | nil =>
    intro a h s hs
    simp only [dispatchStates, List.mem_singleton] at hs
    rw [hs]
    exact h
  | cons ok rest ih =>
    intro a h s hs
    simp only [dispatchStates] at hs
    rcases List.mem_cons.mp hs with rfl | hs'
    · exact h
    · exact ih (fileIteration adjust proc saved a ok)
        (getRes_fileIteration adjust proc saved a ok h) s hs'

theorem pyLowerChar_eq_three (c : Char) : pyLowerChar c = '3' ↔ c = '3' := by
  constructor
  · intro h
    unfold pyLowerChar at h
    by_cases hu : c.isUpper
    · rw [if_pos hu] at h
      exfalso
      have hb : 65 ≤ c.toNat ∧ c.toNat ≤ 90 := by
        simp only [Char.isUpper, Bool.and_eq_true, decide_eq_true_eq] at hu
        exact hu
      have hvalid : (c.toNat + 32).isValidChar := Or.inl (by omega)
      have htn : (Char.ofNat (c.toNat + 32)).toNat = c.toNat + 32 := by
        unfold Char.ofNat
        rw [dif_pos hvalid]
        rfl
      rw [h] at htn
      have h51 : Char.toNat '3' = 51 := by decide
      rw [h51] at htn
      omega
    · rw [if_neg hu] at h
      exact h
  · rintro rfl
    decide

theorem pyLower_eq_three (s : String) : pyLower s = "3" ↔ s = "3" := by
  constructor
  · intro h
    have hd : s.data.map pyLowerChar = ['3'] := by
      have hdata := congrArg String.data h
      simpa [pyLower] using hdata
    obtain ⟨data⟩ := s
    cases data with
    | nil => simp at hd
    | cons c t =>
      cases t with
      | nil =>
        simp only [List.map_cons, List.map_nil, List.cons.injEq, and_true] at hd
        have hc : c = '3' := (pyLowerChar_eq_three c).mp hd
        rw [hc]
      | cons c2 t2 => simp at hd
  · rintro rfl
    decide

theorem survives_eq_false (y : List ℚ) (sr minLen : ℚ) (p : ℕ × ℕ × ℕ) :
    survives y sr minLen p = false ↔ candDur y sr p.2.1 p.2.2 < minLen := by
  simp [survives]

theorem renderGo_eq (fadeFn filterFn normFn : List ℚ → List ℚ) (base : String)
    (y : List ℚ) (sr minLen : ℚ) : ∀ (pairs : List (ℕ × ℕ × ℕ)) (count : ℕ),
    renderGo fadeFn filterFn normFn base y sr minLen pairs count =
      (numberFrom fadeFn filterFn normFn base y count
          (pairs.filter (survives y sr minLen)),
        (pairs.filter (fun p => !survives y sr minLen p)).map
          (fun p => ⟨p.1 + 1, candDur y sr p.2.1 p.2.2⟩)) := by
  intro pairs
  induction pairs with
  | nil => intro count; simp [renderGo, numberFrom]
  | cons p ps ih =>
    intro count
    obtain ⟨i, s, e⟩ := p
    by_cases h : candDur y sr s e < minLen
    · have hs : survives y sr minLen (i, s, e) = false := by
        simp [survives, h]
      rw [renderGo, if_pos (by simpa [candDur] using h)]
      simp [List.filter_cons, hs, ih, candDur]
    · have hs : survives y sr minLen (i, s, e) = true := by
        simp [survives, h]
      rw [renderGo, if_neg (by simpa [candDur] using h)]
      simp [List.filter_cons, hs, ih, numberFrom, writtenOf]

/-! ## Claims -/

/-- C2: for a boundary set of size `N` the renderer evaluates exactly `N − 1`
candidates (each one either written or warned about), writes at most `N − 1`
files — strictly fewer as soon as one candidate is shorter than
`min_length` — and a candidate is skipped, with a warning carrying its
1-based index and its duration, exactly when its duration
`len(candidate) / sample_rate` is below `min_length`. -/
theorem claim_C2_renderer_candidate_filter
    (fadeFn filterFn normFn : List ℚ → List ℚ) (base : String) (y : List ℚ)
    (frames : List ℕ) (hop nFft : ℕ) (sr minLen : ℚ) (samples : List ℕ)
    (written : List WrittenFile) (warns : List SkipWarning)
    (hsamp : samples = framesToSamples frames hop nFft)
    (hres : render_segments fadeFn filterFn normFn base y frames hop nFft sr minLen
      = (written, warns)) :
    written.length + warns.length = frames.length - 1 ∧
    written.length ≤ frames.length - 1 ∧
    (∀ i, i + 1 < frames.length →
      (candDur y sr (samples.getD i 0) (samples.getD (i + 1) 0) < minLen ↔
        (⟨i + 1, candDur y sr (samples.getD i 0) (samples.getD (i + 1) 0)⟩ : SkipWarning)
          ∈ warns)) ∧
    ((∃ i, i + 1 < frames.length ∧
        candDur y sr (samples.getD i 0) (samples.getD (i + 1) 0) < minLen) →
      written.length < frames.length - 1) := by
  subst hsamp
  rw [render_segments, renderGo_eq] at hres
  obtain ⟨hw, hk⟩ := Prod.mk.injEq .. ▸ hres
  have hNs : (framesToSamples frames hop nFft).length = frames.length := by
    simp [framesToSamples]
  have hP : (adjacentPairs (framesToSamples frames hop nFft) 0).length
      = frames.length - 1 := by
    rw [adjacentPairs_length, hNs]
  have hwlen : written.length
      = ((adjacentPairs (framesToSamples frames hop nFft) 0).filter
          (survives y sr minLen)).length := by
    rw [← hw, numberFrom_length]
  have hklen : warns.length
      = ((adjacentPairs (framesToSamples frames hop nFft) 0).filter
          (fun p => !survives y sr minLen p)).length := by
    rw [← hk, List.length_map]
  have hsum : written.length + warns.length = frames.length - 1 := by
    rw [hwlen, hklen, length_filter_add_length_filter_not, hP]
  have hiff : ∀ i, i + 1 < frames.length →
      (candDur y sr ((framesToSamples frames hop nFft).getD i 0)
          ((framesToSamples frames hop nFft).getD (i + 1) 0) < minLen ↔
        (⟨i + 1, candDur y sr ((framesToSamples frames hop nFft).getD i 0)
            ((framesToSamples frames hop nFft).getD (i + 1) 0)⟩ : SkipWarning)
          ∈ warns) := by
    intro i hi
    constructor
    · intro hd
      have hmem : (i, (framesToSamples frames hop nFft).getD i 0,
          (framesToSamples frames hop nFft).getD (i + 1) 0)
          ∈ adjacentPairs (framesToSamples frames hop nFft) 0 :=
        (mem_adjacentPairs ..).mpr ⟨i, by omega, by omega, rfl, rfl⟩
      have hns : survives y sr minLen (i, (framesToSamples frames hop nFft).getD i 0,
          (framesToSamples frames hop nFft).getD (i + 1) 0) = false :=
        (survives_eq_false ..).mpr hd
      rw [← hk]
      exact List.mem_map.mpr
        ⟨_, List.mem_filter.mpr ⟨hmem, by simp only [hns, Bool.not_false]⟩, rfl⟩
    · intro hmem
      rw [← hk] at hmem
      obtain ⟨p, hpK, hpw⟩ := List.mem_map.mp hmem
      have hplt : candDur y sr p.2.1 p.2.2 < minLen := by
        have := (List.mem_filter.mp hpK).2
        simpa [survives] using this
      have hdur : candDur y sr p.2.1 p.2.2
          = candDur y sr ((framesToSamples frames hop nFft).getD i 0)
            ((framesToSamples frames hop nFft).getD (i + 1) 0) := by
        have h2 := congrArg SkipWarning.duration hpw
        simpa using h2
      rwa [hdur] at hplt
  refine ⟨hsum, by omega, hiff, ?_⟩
  rintro ⟨i, hi, hd⟩
  have hmemw := (hiff i hi).mp hd
  have : 0 < warns.length := List.length_pos_of_mem hmemw
  omega

/-- C3: the renderer's output files are numbered consecutively from 1 in
processing order, counting only surviving segments; each name appends the
number to the base path; and on candidates with durations
`[0.05 s, 0.3 s, 0.2 s]` and `min_length = 0.1 s` exactly two files are
written, numbered 1 and 2, holding the 2nd and 3rd candidates. -/
theorem claim_C3_sequential_numbering
    (fadeFn filterFn normFn : List ℚ → List ℚ) (base : String) (y : List ℚ)
    (frames : List ℕ) (hop nFft : ℕ) (sr minLen : ℚ)
    (written : List WrittenFile) (warns : List SkipWarning)
    (hres : render_segments fadeFn filterFn normFn base y frames hop nFft sr minLen
      = (written, warns)) :
    written.map WrittenFile.num = List.range' 1 written.length ∧
    (∀ w ∈ written, w.path = base ++ "_" ++ natStr w.num ++ ".wav") ∧
    render_segments id id id ("seg") exampleSignal [0, 1, 7, 11] 1 0 20 (1 / 10)
      = ([⟨1, "seg_1.wav", pySliceN exampleSignal 1 7⟩,
          ⟨2, "seg_2.wav", pySliceN exampleSignal 7 11⟩],
         [⟨1, 1 / 20⟩]) := by
  rw [render_segments, renderGo_eq] at hres
  obtain ⟨hw, hk⟩ := Prod.mk.injEq .. ▸ hres
  refine ⟨?_, ?_, exampleRenderEval⟩
  · rw [← hw, numberFrom_map_num, numberFrom_length]
  · intro w hmem
    rw [← hw] at hmem
    obtain ⟨p, hp, hwp⟩ := mem_numberFrom _ _ _ _ _ _ _ _ hmem
    have hpath := congrArg WrittenFile.path hwp
    have hnum := congrArg WrittenFile.num hwp
    simp only [writtenOf] at hpath hnum
    rw [hpath, ← hnum]

/-- C5: every buffer the renderer writes is
`normalise(filter(fade(candidate)))` — the three conditioning stages applied
in exactly this order, each consuming the previous stage's output, with no
further stage. -/
theorem claim_C5_conditioning_order
    (fadeFn filterFn normFn : List ℚ → List ℚ) (base : String) (y : List ℚ)
    (frames : List ℕ) (hop nFft : ℕ) (sr minLen : ℚ)
    (written : List WrittenFile) (warns : List SkipWarning)
    (hres : render_segments fadeFn filterFn normFn base y frames hop nFft sr minLen
      = (written, warns)) :
    ∀ w ∈ written, ∃ p ∈ adjacentPairs (framesToSamples frames hop nFft) 0,
      w.buffer = normFn (filterFn (fadeFn (pySliceN y p.2.1 p.2.2))) := by
  rw [render_segments, renderGo_eq] at hres
  obtain ⟨hw, hk⟩ := Prod.mk.injEq .. ▸ hres
  intro w hmem
  rw [← hw] at hmem
  obtain ⟨p, hp, hwp⟩ := mem_numberFrom _ _ _ _ _ _ _ _ hmem
  refine ⟨p, (List.mem_filter.mp hp).1, ?_⟩
  have hbuf := congrArg WrittenFile.buffer hwp
  simpa [writtenOf] using hbuf

/-- C4: for `N` boundaries the exporter writes exactly `N − 1` lines — one
per adjacent pair, with no minimum-length filtering — each consisting of the
pair's start and end times formatted with exactly six (zero-padded) decimal
digits, separated by one tab and terminated by a newline; the time pair
`(1.5, 2.333333)` produces the line `1.500000<TAB>2.333333`. -/
theorem claim_C4_exporter_format (onsets : List ℕ) (sr : ℚ) :
    (save_segments_as_txt onsets sr).length = onsets.length - 1 ∧
    (∀ i, i + 1 < onsets.length →
      (save_segments_as_txt onsets sr)[i]? =
        some (fmt6 ((onsets.getD i 0 : ℚ) / sr) ++ "\t"
          ++ fmt6 ((onsets.getD (i + 1) 0 : ℚ) / sr) ++ "\n")) ∧
    (∀ t : ℚ, ∃ ip fp : List Char,
      (fmt6 t).data = ip ++ '.' :: fp ∧ fp.length = 6 ∧ fp.all Char.isDigit = true ∧
      ip ≠ [] ∧ ip.all Char.isDigit = true) ∧
    save_segments_as_txt [3000000, 4666666] 2000000 = ["1.500000\t2.333333\n"] := by
  refine ⟨?_, ?_, fmt6_decimal_places, ?_⟩
  · simp [save_segments_as_txt, adjacentPairs_length]
  · intro i hi
    simp [save_segments_as_txt, List.getElem?_map, adjacentPairs_getElem? onsets 0 i hi]
  · simp only [save_segments_as_txt, adjacentPairs, List.map_cons, List.map_nil]
    norm_num [fmt6, pyRoundHalfEven]
    decide

/-- C7: if any timestamp line is malformed — fewer than two tokens, or a
non-numeric token among the first two — the text segmenter raises instead of
skipping: the run reports an error, output stops at the longest well-formed
prefix, and every written file comes from a well-formed line (no malformed
line ever yields an output file). -/
theorem claim_C7_malformed_aborts
    (fadeFn : List ℚ → List ℚ) (y : List ℚ) (sr : ℚ) (lines : List String)
    (hmal : ∃ l ∈ lines, malformedLine l = true) :
    (segment_using_txt fadeFn y sr lines).2.isSome = true ∧
    (segment_using_txt fadeFn y sr lines).1.length
      = (lines.takeWhile (fun l => !malformedLine l)).length ∧
    ∀ out ∈ (segment_using_txt fadeFn y sr lines).1,
      out.idx < lines.length ∧ malformedLine (lines.getD out.idx noLine) = false := by
  obtain ⟨h1, h2, h3⟩ := segTxtGo_spec fadeFn y sr lines 0
  refine ⟨h1.mpr hmal, h2, ?_⟩
  intro out hout
  obtain ⟨-, hb, hc⟩ := h3 out hout
  constructor
  · simpa using hb
  · simpa using hc

/-- Witness for C7 at a concrete two-line file whose second line is not
numeric: the operation raises. -/
theorem claim_C7_malformed_aborts_witness :
    (segment_using_txt id exampleSignal 48000 ["0.0 1.5", "oops"]).2.isSome = true :=
  (claim_C7_malformed_aborts id exampleSignal 48000 (["0.0 1.5", "oops"])
    ⟨"oops", by decide, by decide⟩).1

/-- C6, counterexample to the claim as stated: on the line `0.0 0.0004`
at 48000 Hz the code computes the end offset `int(0.0004*1000 * 48000/1000)
= 19`, while converting the time to a millisecond *integer* first, as the
claim words it, gives `int(0.0004*1000) = 0` and hence offset 0. -/
theorem claim_C6_counterexample :
    (segment_using_txt id exampleSignal 48000 ["0.0 0.0004"]).1.map TxtOutput.endSample
      = [19] ∧
    specMsIntegerSample (1 / 2500) 48000 = 0 ∧ ((19 : ℤ) ≠ 0) := by
  refine ⟨?_, ?_, by decide⟩
  · have hsplit : pyStrSplit ("0.0 0.0004") = ["0.0", "0.0004"] := by decide
    simp only [segment_using_txt, segTxtGo, processTxtLine, hsplit, pyFloatEval_zeroDot,
      pyFloatEval_fourTenThousandths]
    norm_num [pyInt]
  · norm_num [specMsIntegerSample, pyInt]

/-- C6 (amended): for every well-formed line the text segmenter converts
both times to milliseconds by multiplying by 1000 (keeping any fractional
part) and derives each sample offset as `int(time_ms * sample_rate / 1000)`,
truncated toward zero — algebraically `int(time * sample_rate)`; the line
`0.0 1.5` at sample rate 48000 yields the sample range [0, 72000). -/
theorem claim_C6_text_sample_offsets
    (fadeFn : List ℚ → List ℚ) (y : List ℚ) (sr : ℚ) (i : ℕ) (line : String)
    (t0 t1 : String) (rest : List String) (v0 v1 : ℚ)
    (htok : pyStrSplit line = t0 :: t1 :: rest)
    (h0 : pyFloat? t0 = some v0) (h1 : pyFloat? t1 = some v1) :
    (∃ out, processTxtLine fadeFn y sr i line = some out ∧
      out.startSample = pyInt (v0 * sr) ∧ out.endSample = pyInt (v1 * sr) ∧
      out.buffer = fadeFn (pySliceZ y (pyInt (v0 * sr)) (pyInt (v1 * sr)))) ∧
    (segment_using_txt id exampleSignal 48000 ["0.0 1.5"]).1.map
      (fun o => (o.startSample, o.endSample)) = [(0, 72000)] := by
  have hc0 : v0 * 1000 * sr / 1000 = v0 * sr := by ring
  have hc1 : v1 * 1000 * sr / 1000 = v1 * sr := by ring
  constructor
  · refine ⟨_, processTxtLine_eq_some fadeFn y sr i line t0 t1 rest v0 v1 htok h0 h1,
      ?_, ?_, ?_⟩
    · simp [hc0]
    · simp [hc1]
    · simp [hc0, hc1]
  · have hsplit : pyStrSplit ("0.0 1.5") = ["0.0", "1.5"] := by decide
    simp only [segment_using_txt, segTxtGo, processTxtLine, hsplit, pyFloatEval_zeroDot,
      pyFloatEval_threeHalves]
    norm_num [pyInt]

/-- C1: the round-trip fails on the code, far beyond the claimed ±1 sample.
With boundaries `[0, 10]` (frames), hop 4, FFT size 8 and sample rate 48000,
the renderer slices samples [4, 44) (frames-to-samples conversion with hop
and window offset), but the exporter writes the boundary values unconverted
(`0/48000` and `10/48000` seconds), so feeding the exported line back
through the text segmenter yields the range [0, 9): both endpoints differ
from the renderer's by more than one sample. -/
theorem claim_C1_roundtrip_divergence :
    framesToSamples [0, 10] 4 8 = [4, 44] ∧
    (render_segments id id id ("b") exampleSignal [0, 10] 4 8 48000 0).1.map
      (fun w => w.buffer) = [pySliceN exampleSignal 4 44] ∧
    save_segments_as_txt [0, 10] 48000 = ["0.000000\t0.000208\n"] ∧
    (segment_using_txt id exampleSignal 48000 (save_segments_as_txt [0, 10] 48000)).1.map
      (fun o => (o.startSample, o.endSample)) = [(0, 9)] ∧
    ((4 : ℤ) - 0 > 1 ∧ (44 : ℤ) - 9 > 1) := by
  have hexport : save_segments_as_txt [0, 10] 48000 = ["0.000000\t0.000208\n"] := by
    simp only [save_segments_as_txt, adjacentPairs, List.map_cons, List.map_nil]
    norm_num [fmt6, pyRoundHalfEven]
    decide
  refine ⟨by decide, ?_, hexport, ?_, by decide, by decide⟩
  · have hlen : exampleSignal.length = 11 := by rfl
    simp only [render_segments, framesToSamples, List.map_cons, List.map_nil]
    norm_num only []
    simp only [adjacentPairs, renderGo, pySliceN, List.length_drop, List.length_take, hlen]
    norm_num
  · rw [hexport]
    have hsplit : pyStrSplit ("0.000000\t0.000208\n") = ["0.000000", "0.000208"] := by
      decide
    simp only [segment_using_txt, segTxtGo, processTxtLine, hsplit, pyFloatEval_zeroSix,
      pyFloatEval_twoOhEight]
    norm_num [pyInt]

/-- C8, counterexample to the claim as stated: Segmentor startup is a core
operation, and on a configuration whose output directory is unset it
overwrites that Configuration field with a derived default, so the
Configuration is not read-only after startup. -/
theorem claim_C8_counterexample :
    (segmentorInit exampleArgs).output_directory ≠ exampleArgs.output_directory := by
  simp [segmentorInit, exampleArgs]

/-- C8 (amended): configuration mutation is confined to three sites  —
Segmentor startup fills in `output_directory` when it is unset (leaving
every other option field unchanged, and leaving the whole object unchanged
when the directory was set), the text branch likewise fills in `input_text`
when unset, and the per-file dispatch adjusts only the five
analysis-resolution fields, restoring them to the captured values by the end
of the loop; the sample rate, minimum length, fade, filter and normalization
options are modified by none of these operations. -/
theorem claim_C8_config_mutation_confined (a : Args) :
    ((segmentorInit a).sample_rate = a.sample_rate ∧
     (segmentorInit a).min_length = a.min_length ∧
     (segmentorInit a).fade_duration = a.fade_duration ∧
     (segmentorInit a).curve_type = a.curve_type ∧
     (segmentorInit a).filter_frequency = a.filter_frequency ∧
     (segmentorInit a).filter_type = a.filter_type ∧
     (segmentorInit a).normalisation_level = a.normalisation_level ∧
     (segmentorInit a).normalisation_mode = a.normalisation_mode ∧
     (segmentorInit a).input_text = a.input_text ∧
     (segmentorInit a).n_fft = a.n_fft ∧
     (segmentorInit a).hop_size = a.hop_size) ∧
    (∀ d, a.output_directory = some d → segmentorInit a = a) ∧
    ((textModeDefault a).sample_rate = a.sample_rate ∧
     (textModeDefault a).min_length = a.min_length ∧
     (textModeDefault a).fade_duration = a.fade_duration ∧
     (textModeDefault a).output_directory = a.output_directory ∧
     (textModeDefault a).n_fft = a.n_fft ∧
     (textModeDefault a).hop_size = a.hop_size) ∧
    (∀ p, a.input_text = some p → textModeDefault a = a) ∧
    (∀ (adjust : Args → ResFields) (proc : Args → Args) (oks : List Bool),
      getRes (dispatchFinal adjust proc (getRes (dispatchInit a)) (dispatchInit a) oks)
        = getRes (dispatchInit a)) := by
  refine ⟨?_, ?_, ?_, ?_, ?_⟩
  · cases h : a.output_directory <;> simp [segmentorInit, h]
  · intro d h
    cases a
    simp_all [segmentorInit]
  · cases h : a.input_text <;> simp [textModeDefault, h]
  · intro p h
    cases a
    simp_all [textModeDefault]
  · intro adjust proc oks
    exact dispatchFinal_getRes adjust proc _ oks (dispatchInit a) rfl

/-- Witness for the amended C8 at the default configuration with the output
directory set: Segmentor startup then leaves the configuration untouched. -/
theorem claim_C8_config_mutation_confined_witness :
    segmentorInit { exampleArgs with output_directory := some ("out") }
      = { exampleArgs with output_directory := some ("out") } :=
  (claim_C8_config_mutation_confined
    { exampleArgs with output_directory := some ("out") }).2.1 ("out") rfl

/-- C9: in the batch dispatch loop, the five analysis-resolution fields
(`n_fft`, `hop_size`, `window_length`, `n_bins`, `n_mels`) equal the values
captured before the loop at the start of every iteration and after the last
one, for any per-file resolution adjustment and any per-operation
processing, so an adjustment made for one file never carries over to the
next (a file that fails to load skips both the adjustment and the restore
and thus also preserves them). -/
theorem claim_C9_resolution_restored
    (adjust : Args → ResFields) (proc : Args → Args) (a : Args) (oks : List Bool) :
    ∀ s ∈ dispatchStates adjust proc (getRes (dispatchInit a)) (dispatchInit a) oks,
      getRes s = getRes (dispatchInit a) :=
  dispatchStates_getRes adjust proc _ oks (dispatchInit a) rfl

/-- Witness for C9: after processing one successfully loaded file whose
adjustment squashes every resolution field to 1, the shared object again
carries the captured resolution values. -/
theorem claim_C9_resolution_restored_witness :
    getRes (fileIteration (fun _ => ⟨1, 1, 1, 1, 1⟩) id (getRes (dispatchInit exampleArgs))
        (dispatchInit exampleArgs) true)
      = getRes (dispatchInit exampleArgs) :=
  claim_C9_resolution_restored (fun _ => ⟨1, 1, 1, 1, 1⟩) id exampleArgs [true] _
    (by simp [dispatchStates])

/-- C10: in text mode the interactive prompt is always presented; the answer
`3` (after lowercasing, which fixes `3` itself) exits without running the
segmenter, and every other answer — `1`, `2`, or anything unrecognized —
produces the identical behaviour of running the text segmenter exactly
once. -/
theorem claim_C10_text_mode_selector (s : String) :
    (segmentorMainTextMode s).prompted = true ∧
    ((segmentorMainTextMode s).exited = true ↔ s = "3") ∧
    (s ≠ "3" → segmentorMainTextMode s = ⟨true, false, 1⟩) := by
  by_cases h : s = "3"
  · subst h
    exact ⟨by decide, by decide, fun hc => absurd rfl hc⟩
  · have hlow : ¬(pyLower s = "3") := fun hl => h ((pyLower_eq_three s).mp hl)
    unfold segmentorMainTextMode
    rw [if_neg hlow]
    refine ⟨rfl, ?_, fun _ => rfl⟩
    simp [h]

/-- Witness for C10 at the unrecognized answer `render`: the prompt falls
through to a single run of the text segmenter. -/
theorem claim_C10_text_mode_selector_witness :
    segmentorMainTextMode ("render") = ⟨true, false, 1⟩ :=
  (claim_C10_text_mode_selector ("render")).2.2 (by decide)

/-- Witness for C2 at the `exampleSignal` rendering: two files and one
warning from four boundaries. -/
theorem claim_C2_renderer_candidate_filter_witness :
    ([(⟨1, "seg_1.wav", pySliceN exampleSignal 1 7⟩ : WrittenFile),
      ⟨2, "seg_2.wav", pySliceN exampleSignal 7 11⟩] : List WrittenFile).length
      + ([(⟨1, 1 / 20⟩ : SkipWarning)] : List SkipWarning).length
      = ([0, 1, 7, 11] : List ℕ).length - 1 :=
  (claim_C2_renderer_candidate_filter id id id ("seg") exampleSignal [0, 1, 7, 11] 1 0 20
    (1 / 10) (framesToSamples [0, 1, 7, 11] 1 0) _ _ rfl exampleRenderEval).1

/-- Witness for C3 at the `exampleSignal` rendering: the two written files
carry numbers 1 and 2. -/
theorem claim_C3_sequential_numbering_witness :
    ([(⟨1, "seg_1.wav", pySliceN exampleSignal 1 7⟩ : WrittenFile),
      ⟨2, "seg_2.wav", pySliceN exampleSignal 7 11⟩] : List WrittenFile).map
        WrittenFile.num
      = List.range' 1 2 :=
  (claim_C3_sequential_numbering id id id ("seg") exampleSignal [0, 1, 7, 11] 1 0 20
    (1 / 10) _ _ exampleRenderEval).1

/-- Witness for C5 at the `exampleSignal` rendering: the first written
buffer is the (identity-)conditioned slice of some adjacent boundary
pair. -/
theorem claim_C5_conditioning_order_witness :
    ∃ p ∈ adjacentPairs (framesToSamples [0, 1, 7, 11] 1 0) 0,
      (⟨1, "seg_1.wav", pySliceN exampleSignal 1 7⟩ : WrittenFile).buffer
        = id (id (id (pySliceN exampleSignal p.2.1 p.2.2))) :=
  claim_C5_conditioning_order id id id ("seg") exampleSignal [0, 1, 7, 11] 1 0 20
    (1 / 10) _ _ exampleRenderEval _ (List.mem_cons_self ..)

/-- Witness for C4 at the boundary pair whose times are 1.5 s and
2.333333 s. -/
theorem claim_C4_exporter_format_witness :
    (save_segments_as_txt [3000000, 4666666] 2000000)[0]? =
      some (fmt6 ((([3000000, 4666666] : List ℕ).getD 0 0 : ℚ) / 2000000) ++ "\t"
        ++ fmt6 ((([3000000, 4666666] : List ℕ).getD 1 0 : ℚ) / 2000000) ++ "\n") :=
  (claim_C4_exporter_format [3000000, 4666666] 2000000).2.1 0 (by decide)

/-- Witness for the amended C6 at the line `0.0 1.5` and sample rate
48000. -/
theorem claim_C6_text_sample_offsets_witness :
    ∃ out, processTxtLine id exampleSignal 48000 0 ("0.0 1.5") = some out ∧
      out.startSample = pyInt ((0 : ℚ) * 48000) ∧
      out.endSample = pyInt ((3 / 2 : ℚ) * 48000) ∧
      out.buffer = id (pySliceZ exampleSignal (pyInt ((0 : ℚ) * 48000))
        (pyInt ((3 / 2 : ℚ) * 48000))) :=
  (claim_C6_text_sample_offsets id exampleSignal 48000 0 ("0.0 1.5") ("0.0") ("1.5") []
    0 (3 / 2) (by decide) pyFloatEval_zeroDot pyFloatEval_threeHalves).1

end WaveCraft
